import Mathlib

/-!
Verification of the IndexedDB-backed light-client persistence layer
(`src/database/indexed_db_light.rs`).

The Rust module drives a browser IndexedDB database through `web_sys`
bindings.  We embed it shallowly:

* A JavaScript value is modelled by `JsVal`.  The module only ever stores
  string values, string keys (hex-encoded hashes) and number keys (block
  numbers); `undefined` is the result a successful `get` request resolves
  with when the key is absent, and `other` stands for any other value.
* Engine state is `DbState`: a list of named collections (object stores),
  each an association list from keys to values.  Per the IndexedDB data
  model (which the spec's data model mirrors: `best-chain` keys are
  "encoded as the store's native numeric key type"), keys are typed: a
  number key and a string key are never equal, which `JsVal`'s equality
  reflects.
* Engine responses that the Rust control flow branches on but that are not
  determined by the store contents (operation-level faults injected by the
  engine, the transaction's terminal error) are passed in explicitly via
  `EngineFaults`; the duplicate-key `ConstraintError` on `add` is raised by
  the model itself exactly when the key is already present, which is the
  engine behaviour the spec assumes for the "add" (insert-if-absent)
  operation.
* A Rust panic (`unwrap`/`assert!` failure on this path) is the `fatal`
  outcome; `Option.none` plays the same role for the synchronous helpers
  `create_schema` and the upgrade callback.
* Transaction atomicity follows the spec's engine contract: the two writes
  of `insert_header` become durable exactly when the transaction's terminal
  notification carries no error; on a terminal error nothing is durable.
-/

namespace IndexedDbLight

/-- Model of a JavaScript value as seen through the wasm bindings.  Block
numbers reach the engine via `JsValue::from_f64(height as f64)`; we model the
number exactly as a natural (exact for heights below 2^53, which covers every
value this module handles in practice). -/
inductive JsVal where
  | str : String → JsVal
  | num : Nat → JsVal
  | undefined : JsVal
  | other : JsVal
  deriving DecidableEq, Repr

/-- Model of `JsValue::as_string()`: a string value yields its text, every
other value yields `none`. -/
def asString : JsVal → Option String
  | .str s => some s
  | _ => none

/-- Model of a `DomException`: the Rust code only ever inspects its `name()`. -/
structure DomException where
  name : String
  deriving DecidableEq, Repr

/-- Mirror of the Rust `CorruptedError` enum. -/
inductive CorruptedError where
  | UnexpectedValueTy
  deriving DecidableEq, Repr

/-- Mirror of the Rust `AccessError` enum. -/
inductive AccessError where
  | Corrupted : CorruptedError → AccessError
  | TransactionError : DomException → AccessError
  deriving DecidableEq, Repr

/-- Mirror of the Rust `OpenError` enum.  The payloads of the two
engine-reported variants are the JavaScript values the bindings hand back. -/
inductive OpenError where
  | NoWindow : OpenError
  | IndexedDbNotSupported : JsVal → OpenError
  | OpenError : JsVal → OpenError
  deriving DecidableEq, Repr

/-- Result of running a fallible Rust code path: a normal return value, a
typed `Err`, or a panic (`unwrap` failure or explicit panic). -/
inductive Outcome (ε α : Type) where
  | ok : α → Outcome ε α
  | err : ε → Outcome ε α
  | fatal : Outcome ε α
  deriving DecidableEq, Repr

/-- An object store: an association list from (typed) keys to values. -/
abbrev Collection := List (JsVal × JsVal)

/-- The engine state: the named object stores of the open database. -/
structure DbState where
  colls : List (String × Collection)
  deriving DecidableEq, Repr

/-- Look an object store up by name. -/
def findColl (s : DbState) (name : String) : Option Collection :=
  (s.colls.find? (fun p => p.fst == name)).map Prod.snd

/-- Replace the contents of the named object store. -/
def setColl (s : DbState) (name : String) (c : Collection) : DbState :=
  ⟨s.colls.map (fun p => if p.fst == name then (p.fst, c) else p)⟩

/-- Look a key up in a collection (first matching entry). -/
def collLookup (c : Collection) (k : JsVal) : Option JsVal :=
  (c.find? (fun p => p.fst == k)).map Prod.snd

/-- Number of entries of a collection carrying the given key. -/
def countKey (c : Collection) (k : JsVal) : Nat :=
  (c.filter (fun p => p.fst == k)).length

/-- Model of the engine's "put" (upsert): overwrite the entry at the key if
one exists, append a fresh entry otherwise. -/
def collPut (c : Collection) (k v : JsVal) : Collection :=
  if c.any (fun p => p.fst == k) then
    c.map (fun p => if p.fst == k then (k, v) else p)
  else
    c ++ [(k, v)]

/-- Model of `IdbDatabase::create_object_store`: fails (the Rust caller
unwraps, so: panics) when a store of that name already exists, otherwise adds
an empty store of that name. -/
def createObjectStore (s : DbState) (name : String) : Option DbState :=
  if (findColl s name).isSome then none
  else some ⟨s.colls ++ [(name, [])]⟩

/-- Embedding of `create_schema` (lines 193–207): at `old_version <= 0` it
creates the `block-headers` and then the `best-chain` store, unwrapping each
creation; at any later version it does nothing.  `none` models the panic of a
failed `unwrap`. -/
def create_schema (s : DbState) (old_version : Nat) : Option DbState :=
  if old_version ≤ 0 then
    match createObjectStore s "block-headers" with
    | none => none
    | some s1 => createObjectStore s1 "best-chain"
  else
    some s

/-- Embedding of `wait_transaction` (lines 210–227) after the completion
signal has resolved: the observable input is the transaction's terminal error
field, `transaction.error()`. -/
def wait_transaction (txnError : Option DomException) : Except DomException Unit :=
  match txnError with
  | some e => Except.error e
  | none => Except.ok ()

/-- The three notification-handler slots of a transaction
(`set_oncomplete` / `set_onabort` / `set_onerror`). -/
structure TxnHandlers where
  oncomplete : Option Nat
  onabort : Option Nat
  onerror : Option Nat
  deriving DecidableEq, Repr

/-- Embedding of the handler registration performed by `wait_transaction`
(lines 217–219): the same one-shot closure — identified here by an arbitrary
tag `h` — is installed on all three notification channels. -/
def registerCompletionHandlers (h : Nat) : TxnHandlers :=
  ⟨some h, some h, some h⟩

/-- Modelled from the spec: `hex::encode` of the external `hex` crate, i.e.
lowercase hexadecimal encoding of a byte sequence (spec §3: "lowercase-hex").
Bytes are naturals below 256. -/
def hexDigit (n : Nat) : Char :=
  if n < 10 then Char.ofNat (48 + n) else Char.ofNat (87 + n)

/-- Lowercase two-digit hexadecimal rendering of one byte. -/
def hexByte (b : Nat) : String :=
  String.mk [hexDigit (b / 16 % 16), hexDigit (b % 16)]

/-- Lowercase hexadecimal rendering of a byte sequence. -/
def hexEncode (bytes : List Nat) : String :=
  String.join (bytes.map hexByte)

/-- Modelled from the spec: the result of `crate::header::decode`, of which
this module only consumes the block number (spec §1: "decode(header) ->
{number, ...}"). -/
structure Header where
  number : Nat
  deriving DecidableEq, Repr

/-- Modelled from the spec: the black-box header routines of `crate::header`
(not part of `src/`): a 256-bit hash over the raw header bytes and a fallible
decoder returning at least the block number.  They are parameters of the
embedding: every theorem below holds for an arbitrary instantiation. -/
structure HeaderOps where
  hash_from_scale_encoded_header : List Nat → List Nat
  decode : List Nat → Option Header

/-- Engine responses that the Rust control flow of `insert_header` branches
on but that are not functions of the store contents: an injected
operation-level failure of the `add` (beyond the duplicate-key
`ConstraintError`, which the model raises itself), an injected failure of the
`put`, and the transaction's terminal error observed by `wait_transaction`. -/
structure EngineFaults where
  addFault : Option DomException
  putFault : Option DomException
  txnError : Option DomException
  deriving DecidableEq, Repr

/-- The fault-free engine: every operation succeeds and the transaction
commits. -/
def noFaults : EngineFaults := ⟨none, none, none⟩

/-- The durable effect of `insert_header`'s two writes once the transaction
commits: append `(key, value)` to `block-headers` (the `add`; the key is
fresh on this path) and upsert `(number ↦ key)` into `best-chain` (the
`put_with_key(&key, &number)`, whose parameter order is value then key). -/
def applyInsertWrites (s : DbState) (key value number : JsVal) : DbState :=
  let s1 :=
    match findColl s "block-headers" with
    | some c => setColl s "block-headers" (c ++ [(key, value)])
    | none => s
  match findColl s1 "best-chain" with
  | some c => setColl s1 "best-chain" (collPut c number key)
  | none => s1

/-- Embedding of `Database::insert_header` (lines 79–135).

Control flow, in source order: derive `key = hex(hash(header))`; decode the
header and unwrap (a decode failure panics: `fatal`); derive the number and
the value; open a read-write transaction over the two stores, unwrapping (a
missing store panics); issue the `add` on `block-headers` — the engine
reports `ConstraintError` when the key is already present (duplicate), and
`faults.addFault` injects any other operation-level failure; a
`ConstraintError` returns `Ok(())` at once, any other failure returns
`Err(AccessError::TransactionError)`; then issue the `put` on `best-chain`,
whose failure is unwrapped (panic); finally await the transaction via
`wait_transaction` and map its terminal error to
`AccessError::TransactionError`.  Writes are durable exactly on commit. -/
def insert_header (ops : HeaderOps) (faults : EngineFaults) (s : DbState)
    (scale_encoded_header : List Nat) : Outcome AccessError Unit × DbState :=
  let key := JsVal.str (hexEncode (ops.hash_from_scale_encoded_header scale_encoded_header))
  match ops.decode scale_encoded_header with
  | none => (.fatal, s)
  | some hdr =>
    let number := JsVal.num hdr.number
    let value := JsVal.str (hexEncode scale_encoded_header)
    match findColl s "block-headers", findColl s "best-chain" with
    | some bh, some _ =>
      let addResult : Option DomException :=
        if (collLookup bh key).isSome then some ⟨"ConstraintError"⟩ else faults.addFault
      match addResult with
      | some e =>
        if e.name == "ConstraintError" then (.ok (), s)
        else (.err (.TransactionError e), s)
      | none =>
        match faults.putFault with
        | some _ => (.fatal, s)
        | none =>
          match wait_transaction faults.txnError with
          | .error e => (.err (.TransactionError e), s)
          | .ok _ => (.ok (), applyInsertWrites s key value number)
    | _, _ => (.fatal, s)

/-- Embedding of `Database::get` (lines 143–181).

A missing collection panics (the transaction and `object_store` calls are
unwrapped).  `getFault` injects a synchronous failure of `store.get`: a
`DataError` is turned into `Ok(None)`, anything else hits the explicit
`panic!`.  When the request is issued, it resolves with the stored value, or
with `undefined` when the (string) key is absent — strings are always valid
IndexedDB keys, so issuing the request itself cannot fail for them.  The
resolved result is read back through `as_string()`: a text value yields
`Ok(Some(text))`, anything else
`Err(AccessError::Corrupted(CorruptedError::UnexpectedValueTy))`. -/
def get (s : DbState) (getFault : Option DomException)
    (column_name : String) (key : String) : Outcome AccessError (Option String) :=
  match findColl s column_name with
  | none => .fatal
  | some c =>
    match getFault with
    | some e =>
      if e.name == "DataError" then .ok none
      else .fatal
    | none =>
      let result := (collLookup c (JsVal.str key)).getD JsVal.undefined
      match asString result with
      | some text => .ok (some text)
      | none => .err (.Corrupted .UnexpectedValueTy)

/-- The open request issued against the engine: store name and target schema
version (`idb_factory.open_with_u32(db_name, 1)`). -/
structure OpenRequest where
  name : String
  version : Nat
  deriving DecidableEq, Repr

/-- The environment `Database::open` runs in: whether a window exists, the
result of `window.indexed_db()` (an engine-reported error, or the factory —
`none` when the property is absent, i.e. the capability is unsupported), and
the value the settled open request resolves to (`Except.error v` when that
value does not cast to a database connection). -/
structure OpenEnv where
  window : Option (Except JsVal (Option Unit))
  openResult : Except JsVal DbState

/-- Embedding of `Database::open` (lines 22–76).  `open` is a Lean keyword,
hence the name.  Besides the outcome we expose the open request the code
issued (`none` when it never reached `open_with_u32`): no window yields
`Err(NoWindow)`; an error from `indexed_db()` yields
`Err(IndexedDbNotSupported)`; `indexed_db()` returning `Ok(None)` hits the
`.unwrap()` on the option and panics; otherwise the request is issued at
version 1, and the settled result either casts to a connection (`Ok`) or
yields `Err(OpenError::OpenError(v))`. -/
def open_database (env : OpenEnv) (db_name : String) :
    Outcome OpenError DbState × Option OpenRequest :=
  match env.window with
  | none => (.err .NoWindow, none)
  | some idbResult =>
    match idbResult with
    | .error v => (.err (.IndexedDbNotSupported v), none)
    | .ok none => (.fatal, none)
    | .ok (some _) =>
      let req : OpenRequest := ⟨db_name, 1⟩
      match env.openResult with
      | .ok db => (.ok db, some req)
      | .error v => (.err (.OpenError v), some req)

/-- Model of Rust's `f64::fract` on exact rationals: `x - x.trunc()`, where
truncation rounds towards zero. -/
def rustFract (q : ℚ) : ℚ :=
  if q < 0 then q - (⌈q⌉ : ℚ) else q - (⌊q⌋ : ℚ)

/-- Embedding of the `onupgradeneeded` callback body (lines 40–62).  The old
version arrives as a JavaScript number; every `f64` in the range the
assertions admit is an exact rational, and `fract`, the comparisons and the
final cast are exact there, so `ℚ` models it losslessly.  The callback
asserts `old_version.fract() == 0.0`, `old_version >= 0.0` and
`old_version < u32::max_value() as f64` (that bound is `2^32 - 1 =
4294967295`, not `2^32`); a failed assertion aborts (outer `none`).
Otherwise it casts to `u32` and runs `create_schema` (whose own panic is the
inner `none`). -/
def on_upgrade_needed (db : DbState) (old_version : ℚ) : Option (Option DbState) :=
  if rustFract old_version = 0 ∧ 0 ≤ old_version ∧ old_version < 4294967295 then
    some (create_schema db old_version.num.toNat)
  else
    none

/-- An empty engine state (no object stores yet). -/
def dbEmpty : DbState := ⟨[]⟩

/-- The state right after a fresh schema creation: both stores exist and are
empty. -/
def dbFresh : DbState := ⟨[("block-headers", []), ("best-chain", [])]⟩

/-- A concrete instantiation of the black-box header routines, used by the
witnesses: every header hashes to 32 bytes `0xaa` and decodes to block
number 42. -/
def opsW : HeaderOps :=
  ⟨fun _ => List.replicate 32 170, fun _ => some ⟨42⟩⟩

/-- A concrete state used by witnesses: `block-headers` holds a text value at
key `"aa"` and a non-text (binary) value at key `"bb"`. -/
def dbMixed : DbState :=
  ⟨[("block-headers",
      [(JsVal.str "aa", JsVal.str "0102"), (JsVal.str "bb", JsVal.other)]),
    ("best-chain", [])]⟩

/-! Helper lemmas about the store model. -/

theorem fst_update (name : String) (c : Collection) (p : String × Collection) :
    (if p.fst == name then (p.fst, c) else p).fst = p.fst := by
  by_cases h : p.fst == name <;> simp [h]

theorem find?_setColl (s : DbState) (name name2 : String) (c : Collection) :
    (setColl s name c).colls.find? (fun p => p.fst == name2)
      = (s.colls.find? (fun p => p.fst == name2)).map
          (fun p => if p.fst == name then (p.fst, c) else p) := by
  unfold setColl
  rw [List.find?_map]
  have hp : ((fun p : String × Collection => p.fst == name2) ∘
      (fun p => if p.fst == name then (p.fst, c) else p))
      = (fun p : String × Collection => p.fst == name2) := by
    funext p
    simp only [Function.comp_apply, fst_update]
  rw [hp]

theorem findColl_setColl_self (s : DbState) (name : String) (c c0 : Collection)
    (h : findColl s name = some c0) :
    findColl (setColl s name c) name = some c := by
  unfold findColl at h ⊢
  rw [find?_setColl]
  rcases hf : s.colls.find? (fun p => p.fst == name) with _ | p
  · rw [hf] at h; simp at h
  · have hpred := List.find?_some hf
    have heq : p.fst = name := by simpa using hpred
    rw [hf]
    simp [heq]

theorem findColl_setColl_other (s : DbState) (name name2 : String) (c : Collection)
    (hne : name2 ≠ name) :
    findColl (setColl s name c) name2 = findColl s name2 := by
  unfold findColl
  rw [find?_setColl]
  rcases hf : s.colls.find? (fun p => p.fst == name2) with _ | p
  · rw [hf]; rfl
  · have hpred := List.find?_some hf
    have hp2 : p.fst = name2 := by simpa using hpred
    have hnp : ¬ p.fst = name := by rw [hp2]; exact hne
    rw [hf]
    simp [hnp]

theorem collLookup_append_self (c : Collection) (k v : JsVal)
    (h : collLookup c k = none) :
    collLookup (c ++ [(k, v)]) k = some v := by
  unfold collLookup at h ⊢
  rw [List.find?_append]
  rcases hf : c.find? (fun p => p.fst == k) with _ | p
  · rw [hf]
    simp
  · rw [hf] at h; simp at h

theorem collLookup_append_other (c : Collection) (k k2 v : JsVal) (hne : k2 ≠ k) :
    collLookup (c ++ [(k, v)]) k2 = collLookup c k2 := by
  unfold collLookup
  rw [List.find?_append]
  rcases hf : c.find? (fun p => p.fst == k2) with _ | p
  · rw [hf]
    have : ¬ k = k2 := fun hh => hne hh.symm
    simp [this]
  · rw [hf]
    rfl

theorem countKey_append_self (c : Collection) (k v : JsVal) :
    countKey (c ++ [(k, v)]) k = countKey c k + 1 := by
  unfold countKey
  simp [List.filter_append]

theorem collLookup_none_countKey (c : Collection) (k : JsVal)
    (h : collLookup c k = none) : countKey c k = 0 := by
  unfold collLookup at h
  unfold countKey
  have hf : c.find? (fun p => p.fst == k) = none := by
    rcases hx : c.find? (fun p => p.fst == k) with _ | p
    · exact hx
    · rw [hx] at h; simp at h
  have hall := List.find?_eq_none.mp hf
  have : c.filter (fun p => p.fst == k) = [] := by
    rw [List.filter_eq_nil_iff]
    exact hall
  rw [this]
  rfl

theorem fst_updatePut (k v : JsVal) (p : JsVal × JsVal) :
    (if p.fst == k then (k, v) else p).fst = p.fst := by
  by_cases h : p.fst = k
  · simp [h]
  · simp [h]

theorem find?_collPutMap (c : Collection) (k k2 v : JsVal) :
    (c.map (fun p => if p.fst == k then (k, v) else p)).find? (fun p => p.fst == k2)
      = (c.find? (fun p => p.fst == k2)).map (fun p => if p.fst == k then (k, v) else p) := by
  rw [List.find?_map]
  have hp : ((fun p : JsVal × JsVal => p.fst == k2) ∘ (fun p => if p.fst == k then (k, v) else p))
      = (fun p : JsVal × JsVal => p.fst == k2) := by
    funext p
    simp only [Function.comp_apply, fst_updatePut]
  rw [hp]

theorem collLookup_collPut_self (c : Collection) (k v : JsVal) :
    collLookup (collPut c k v) k = some v := by
  unfold collPut
  by_cases hany : c.any (fun p => p.fst == k)
  · rw [if_pos hany]
    unfold collLookup
    rw [find?_collPutMap]
    have hsome : (c.find? (fun p => p.fst == k)).isSome := by
      rw [List.find?_isSome]
      simpa using List.any_eq_true.mp hany
    rcases hf : c.find? (fun p => p.fst == k) with _ | p
    · rw [hf] at hsome; simp at hsome
    · have hpred := List.find?_some hf
      have heq : p.fst = k := by simpa using hpred
      rw [hf]
      simp [heq]
  · rw [if_neg hany]
    have hnone : collLookup c k = none := by
      unfold collLookup
      have : c.find? (fun p => p.fst == k) = none := by
        rw [List.find?_eq_none]
        intro a ha
        intro hpa
        exact hany (List.any_eq_true.mpr ⟨a, ha, hpa⟩)
      rw [this]
      rfl
    exact collLookup_append_self c k v hnone

theorem collLookup_collPut_other (c : Collection) (k k2 v : JsVal) (hne : k2 ≠ k) :
    collLookup (collPut c k v) k2 = collLookup c k2 := by
  unfold collPut
  by_cases hany : c.any (fun p => p.fst == k)
  · rw [if_pos hany]
    unfold collLookup
    rw [find?_collPutMap]
    rcases hf : c.find? (fun p => p.fst == k2) with _ | p
    · rw [hf]; rfl
    · have hpred := List.find?_some hf
      have hp2 : p.fst = k2 := by simpa using hpred
      have hnp : ¬ p.fst = k := by rw [hp2]; exact hne
      rw [hf]
      simp [hnp]
  · rw [if_neg hany]
    exact collLookup_append_other c k k2 v hne

theorem applyInsertWrites_findColl (s : DbState) (key value number : JsVal)
    (bh bc : Collection)
    (hbh : findColl s "block-headers" = some bh)
    (hbc : findColl s "best-chain" = some bc) :
    findColl (applyInsertWrites s key value number) "block-headers"
        = some (bh ++ [(key, value)]) ∧
    findColl (applyInsertWrites s key value number) "best-chain"
        = some (collPut bc number key) := by
  have h1 : findColl (setColl s "block-headers" (bh ++ [(key, value)])) "best-chain"
      = some bc := by
    rw [findColl_setColl_other _ _ _ _ (by decide)]
    exact hbc
  unfold applyInsertWrites
  rw [hbh]
  simp only []
  rw [h1]
  simp only []
  constructor
  · rw [findColl_setColl_other _ _ _ _ (by decide)]
    exact findColl_setColl_self _ _ _ _ hbh
  · exact findColl_setColl_self _ _ _ _ h1

/-- Reduction of `insert_header` on the fresh-key path: once the header
decodes, both stores exist and the key is absent, the outcome is decided by
the injected faults alone. -/
theorem insert_header_fresh (ops : HeaderOps) (faults : EngineFaults) (s : DbState)
    (H : List Nat) (hdr : Header) (bh bc : Collection)
    (hdec : ops.decode H = some hdr)
    (hbh : findColl s "block-headers" = some bh)
    (hbc : findColl s "best-chain" = some bc)
    (habsent : collLookup bh
      (JsVal.str (hexEncode (ops.hash_from_scale_encoded_header H))) = none) :
    insert_header ops faults s H =
      (match faults.addFault with
       | some e =>
         if e.name == "ConstraintError" then (.ok (), s)
         else (.err (.TransactionError e), s)
       | none =>
         match faults.putFault with
         | some _ => (.fatal, s)
         | none =>
           match faults.txnError with
           | some e => (.err (.TransactionError e), s)
           | none =>
             (.ok (), applyInsertWrites s
               (JsVal.str (hexEncode (ops.hash_from_scale_encoded_header H)))
               (JsVal.str (hexEncode H)) (JsVal.num hdr.number))) := by
  obtain ⟨af, pf, tf⟩ := faults
  cases af <;> cases pf <;> cases tf <;>
    simp [insert_header, hdec, hbh, hbc, habsent, wait_transaction]

/-- Reduction of `insert_header` on the duplicate path: the key is already a
key of `block-headers`, so the engine reports `ConstraintError` on the `add`
and the call returns `Ok(())` with the state untouched — whatever the
injected faults are. -/
theorem insert_header_dup (ops : HeaderOps) (faults : EngineFaults) (s : DbState)
    (H : List Nat) (hdr : Header) (bh bc : Collection)
    (hdec : ops.decode H = some hdr)
    (hbh : findColl s "block-headers" = some bh)
    (hbc : findColl s "best-chain" = some bc)
    (hpresent : (collLookup bh
      (JsVal.str (hexEncode (ops.hash_from_scale_encoded_header H)))).isSome = true) :
    insert_header ops faults s H = (.ok (), s) := by
  simp [insert_header, hdec, hbh, hbc, hpresent]

/-! Claims. -/

/-- C3: calling `insert_header(H)` when `hex(hash(H))` is already a key of
`block-headers` — the engine reports a uniqueness-constraint violation on the
`add` — returns `Ok(())` immediately, for every injected put fault and every
transaction terminal error (so it issues no `best-chain` write and does not
await transaction completion), and leaves the state unchanged; and inserting
the same header twice from a state where the key is absent returns `Ok(())`
both times and leaves exactly one `block-headers` entry for that hash. -/
theorem C3_insert_idempotent (ops : HeaderOps) (s : DbState) (H : List Nat)
    (hdr : Header) (bh bc : Collection)
    (hdec : ops.decode H = some hdr)
    (hbh : findColl s "block-headers" = some bh)
    (hbc : findColl s "best-chain" = some bc) :
    (∀ faults, (collLookup bh
        (JsVal.str (hexEncode (ops.hash_from_scale_encoded_header H)))).isSome = true →
      insert_header ops faults s H = (.ok (), s)) ∧
    (collLookup bh (JsVal.str (hexEncode (ops.hash_from_scale_encoded_header H))) = none →
      ∃ s1 bh1, insert_header ops noFaults s H = (.ok (), s1) ∧
        insert_header ops noFaults s1 H = (.ok (), s1) ∧
        findColl s1 "block-headers" = some bh1 ∧
        countKey bh1 (JsVal.str (hexEncode (ops.hash_from_scale_encoded_header H))) = 1) := by
  constructor
  · intro faults hpresent
    exact insert_header_dup ops faults s H hdr bh bc hdec hbh hbc hpresent
  · intro habsent
    have h1 := insert_header_fresh ops noFaults s H hdr bh bc hdec hbh hbc habsent
    simp only [noFaults] at h1
    obtain ⟨hbh1, hbc1⟩ := applyInsertWrites_findColl s
      (JsVal.str (hexEncode (ops.hash_from_scale_encoded_header H)))
      (JsVal.str (hexEncode H)) (JsVal.num hdr.number) bh bc hbh hbc
    refine ⟨_, bh ++ [(JsVal.str (hexEncode (ops.hash_from_scale_encoded_header H)),
      JsVal.str (hexEncode H))], h1, ?_, hbh1, ?_⟩
    · apply insert_header_dup ops noFaults _ H hdr _ _ hdec hbh1 hbc1
      rw [collLookup_append_self bh _ _ habsent]
      rfl
    · rw [countKey_append_self, collLookup_none_countKey bh _ habsent]

/-- Witness for C3 at a concrete header, hash and fresh store. -/
theorem C3_insert_idempotent_witness :
    ∃ s1 bh1, insert_header opsW noFaults dbFresh [1, 2, 3] = (.ok (), s1) ∧
      insert_header opsW noFaults s1 [1, 2, 3] = (.ok (), s1) ∧
      findColl s1 "block-headers" = some bh1 ∧
      countKey bh1 (JsVal.str (hexEncode (opsW.hash_from_scale_encoded_header [1, 2, 3]))) = 1 :=
  (C3_insert_idempotent opsW dbFresh [1, 2, 3] ⟨42⟩ [] [] rfl rfl rfl).2 rfl

/-- C4 (amended): an operation-level failure of the `add` on `block-headers`
other than a uniqueness-constraint violation is returned as the typed error
`Err(AccessError::TransactionError(err))` with the state unchanged — it is
not propagated as an unrecoverable condition (the code's `return
Err(AccessError::TransactionError(err))` at line 121 is already the typed
error the claim reserves for a "hardened reimplementation"). -/
theorem C4_add_failure_typed (ops : HeaderOps) (s : DbState) (H : List Nat)
    (hdr : Header) (bh bc : Collection) (e : DomException)
    (putF txnF : Option DomException)
    (hdec : ops.decode H = some hdr)
    (hbh : findColl s "block-headers" = some bh)
    (hbc : findColl s "best-chain" = some bc)
    (habsent : collLookup bh
      (JsVal.str (hexEncode (ops.hash_from_scale_encoded_header H))) = none)
    (hname : e.name ≠ "ConstraintError") :
    insert_header ops ⟨some e, putF, txnF⟩ s H = (.err (.TransactionError e), s) := by
  rw [insert_header_fresh ops ⟨some e, putF, txnF⟩ s H hdr bh bc hdec hbh hbc habsent]
  simp [hname]

/-- Counterexample to C4 as stated: at a concrete non-constraint `add`
failure, `insert_header` returns the typed `Err`, not a panic. -/
theorem C4_counterexample :
    insert_header opsW ⟨some ⟨"AbortError"⟩, none, none⟩ dbFresh [1, 2, 3]
        = (.err (.TransactionError ⟨"AbortError"⟩), dbFresh) ∧
    (insert_header opsW ⟨some ⟨"AbortError"⟩, none, none⟩ dbFresh [1, 2, 3]).fst ≠ .fatal := by
  exact ⟨rfl, by decide⟩

/-- Witness for C4 at a concrete non-constraint failure. -/
theorem C4_add_failure_typed_witness :
    insert_header opsW ⟨some ⟨"TransactionInactiveError"⟩, none, none⟩ dbFresh [1, 2, 3]
      = (.err (.TransactionError ⟨"TransactionInactiveError"⟩), dbFresh) :=
  C4_add_failure_typed opsW dbFresh [1, 2, 3] ⟨42⟩ [] [] ⟨"TransactionInactiveError"⟩
    none none rfl rfl rfl rfl (by decide)

/-- C9: a failure of the `put` on `best-chain` is not converted into
`AccessError::TransactionError` and is not recovered — the error branch is a
panic (`unwrap`), so `insert_header` returns a typed error only for the `add`
step and the transaction-completion step, never for the `put` step. -/
theorem C9_put_failure_panics (ops : HeaderOps) (s : DbState) (H : List Nat)
    (hdr : Header) (bh bc : Collection)
    (hdec : ops.decode H = some hdr)
    (hbh : findColl s "block-headers" = some bh)
    (hbc : findColl s "best-chain" = some bc)
    (habsent : collLookup bh
      (JsVal.str (hexEncode (ops.hash_from_scale_encoded_header H))) = none) :
    (∀ e txnF, insert_header ops ⟨none, some e, txnF⟩ s H = (.fatal, s)) ∧
    (∀ faults x s1, insert_header ops faults s H = (.err x, s1) →
      s1 = s ∧
      ((∃ d, faults.addFault = some d ∧ x = .TransactionError d) ∨
       (faults.addFault = none ∧ faults.putFault = none ∧
         ∃ d, faults.txnError = some d ∧ x = .TransactionError d))) := by
  constructor
  · intro e txnF
    rw [insert_header_fresh ops ⟨none, some e, txnF⟩ s H hdr bh bc hdec hbh hbc habsent]
  · intro faults x s1 hrun
    rw [insert_header_fresh ops faults s H hdr bh bc hdec hbh hbc habsent] at hrun
    obtain ⟨af, pf, tf⟩ := faults
    cases af with
    | some d =>
      by_cases hn : d.name = "ConstraintError"
      · simp [hn] at hrun
      · simp only [hn] at hrun
        simp [hn] at hrun
        exact ⟨hrun.2.symm, Or.inl ⟨d, rfl, hrun.1.symm⟩⟩
    | none =>
      cases pf with
      | some d => simp at hrun
      | none =>
        cases tf with
        | some d =>
          simp at hrun
          exact ⟨hrun.2.symm, Or.inr ⟨rfl, rfl, d, rfl, hrun.1.symm⟩⟩
        | none => simp at hrun

/-- Witness for C9: a concrete put failure panics. -/
theorem C9_put_failure_panics_witness :
    insert_header opsW ⟨none, some ⟨"AbortError"⟩, none⟩ dbFresh [1, 2, 3]
      = (.fatal, dbFresh) :=
  (C9_put_failure_panics opsW dbFresh [1, 2, 3] ⟨42⟩ [] [] rfl rfl rfl rfl).1
    ⟨"AbortError"⟩ none

/-- C1 (amended): a successful `insert_header(H)` stores `hex(H)` in
`block-headers` under the string key `hex(hash(H))` and stores `hex(hash(H))`
in `best-chain` under the native number key `N`; a subsequent
`get("block-headers", hex(hash(H)))` returns `Ok(Some(hex(H)))`, but because
`get` queries with a string key and the `best-chain` entry is stored under a
number key, `get("best-chain", ns)` for any string rendering `ns` of `N`
resolves with no value and returns
`Err(AccessError::Corrupted(CorruptedError::UnexpectedValueTy))`, not
`Ok(Some(hex(hash(H))))`. -/
theorem C1_insert_then_get (ops : HeaderOps) (s : DbState) (H : List Nat)
    (hdr : Header) (bh bc : Collection) (ns : String)
    (hdec : ops.decode H = some hdr)
    (hbh : findColl s "block-headers" = some bh)
    (hbc : findColl s "best-chain" = some bc)
    (habsent : collLookup bh
      (JsVal.str (hexEncode (ops.hash_from_scale_encoded_header H))) = none)
    (hns : collLookup bc (JsVal.str ns) = none) :
    ∃ s1, insert_header ops noFaults s H = (.ok (), s1) ∧
      get s1 none "block-headers" (hexEncode (ops.hash_from_scale_encoded_header H))
        = .ok (some (hexEncode H)) ∧
      (∃ bc1, findColl s1 "best-chain" = some bc1 ∧
        collLookup bc1 (JsVal.num hdr.number)
          = some (JsVal.str (hexEncode (ops.hash_from_scale_encoded_header H)))) ∧
      get s1 none "best-chain" ns = .err (.Corrupted .UnexpectedValueTy) := by
  have h1 := insert_header_fresh ops noFaults s H hdr bh bc hdec hbh hbc habsent
  simp only [noFaults] at h1
  obtain ⟨hbh1, hbc1⟩ := applyInsertWrites_findColl s
    (JsVal.str (hexEncode (ops.hash_from_scale_encoded_header H)))
    (JsVal.str (hexEncode H)) (JsVal.num hdr.number) bh bc hbh hbc
  refine ⟨_, h1, ?_, ⟨_, hbc1, collLookup_collPut_self bc _ _⟩, ?_⟩
  · simp only [get, hbh1]
    rw [collLookup_append_self bh _ _ habsent]
    rfl
  · simp only [get, hbc1]
    rw [collLookup_collPut_other bc _ _ _ (by simp), hns]
    rfl

/-- Counterexample to C1 as stated: for a concrete header with number 42, the
insert succeeds and the `block-headers` read-back works, but
`get("best-chain", "42")` returns the corruption error, not
`Ok(Some(hex(hash(H))))`. -/
theorem C1_counterexample :
    (insert_header opsW noFaults dbFresh [1, 2, 3]).fst = .ok () ∧
    get (insert_header opsW noFaults dbFresh [1, 2, 3]).snd none "block-headers"
        (hexEncode (opsW.hash_from_scale_encoded_header [1, 2, 3]))
      = .ok (some (hexEncode [1, 2, 3])) ∧
    get (insert_header opsW noFaults dbFresh [1, 2, 3]).snd none "best-chain" "42"
      = .err (.Corrupted .UnexpectedValueTy) := by
  exact ⟨rfl, rfl, rfl⟩

/-- Witness for C1 at a concrete header, hash and fresh store. -/
theorem C1_insert_then_get_witness :
    ∃ s1, insert_header opsW noFaults dbFresh [1, 2, 3] = (.ok (), s1) ∧
      get s1 none "block-headers" (hexEncode (opsW.hash_from_scale_encoded_header [1, 2, 3]))
        = .ok (some (hexEncode [1, 2, 3])) ∧
      (∃ bc1, findColl s1 "best-chain" = some bc1 ∧
        collLookup bc1 (JsVal.num (42 : Nat))
          = some (JsVal.str (hexEncode (opsW.hash_from_scale_encoded_header [1, 2, 3])))) ∧
      get s1 none "best-chain" "42" = .err (.Corrupted .UnexpectedValueTy) :=
  C1_insert_then_get opsW dbFresh [1, 2, 3] ⟨42⟩ [] [] "42" rfl rfl rfl rfl rfl

/-- C2 (amended): `get` returns `Ok(None)` exactly when the engine reports a
data/type error (`DataError`) on issuing the "get" operation; for a key
absent from the collection the request succeeds and resolves with no value
(`undefined`), so `get` returns
`Err(AccessError::Corrupted(CorruptedError::UnexpectedValueTy))`, not
`Ok(None)`. -/
theorem C2_get_not_found (s : DbState) (cname key : String) (coll : Collection)
    (hc : findColl s cname = some coll) :
    (∀ fault, get s fault cname key = .ok none ↔
      ∃ e, fault = some e ∧ e.name = "DataError") ∧
    (collLookup coll (JsVal.str key) = none →
      get s none cname key = .err (.Corrupted .UnexpectedValueTy)) := by
  constructor
  · intro fault
    cases fault with
    | some e =>
      by_cases hn : e.name = "DataError"
      · simp [get, hc, hn]
      · simp [get, hc, hn]
    | none =>
      simp only [get, hc]
      rcases hl : collLookup coll (JsVal.str key) with _ | v
      · simp [hl, asString]
      · cases v <;> simp [hl, asString]
  · intro habs
    simp [get, hc, habs, asString]

/-- Counterexample to C2 as stated: on a fresh store, `"aa"` is absent from
`block-headers`, yet `get` returns the corruption error rather than
`Ok(None)`. -/
theorem C2_counterexample :
    get dbFresh none "block-headers" "aa" = .err (.Corrupted .UnexpectedValueTy) ∧
    get dbFresh none "block-headers" "aa" ≠ .ok none := by
  exact ⟨rfl, by decide⟩

/-- Witness for C2: a `DataError` yields `Ok(None)`; an absent key yields the
corruption error. -/
theorem C2_get_not_found_witness :
    get dbFresh (some ⟨"DataError"⟩) "block-headers" "aa" = .ok none ∧
    get dbFresh none "block-headers" "aa" = .err (.Corrupted .UnexpectedValueTy) :=
  ⟨((C2_get_not_found dbFresh "block-headers" "aa" [] rfl).1 (some ⟨"DataError"⟩)).mpr
      ⟨⟨"DataError"⟩, rfl, rfl⟩,
    (C2_get_not_found dbFresh "block-headers" "aa" [] rfl).2 rfl⟩

/-- C8: when the "get" query resolves with a stored value, `get` returns
`Ok(Some(text))` if that value decodes as text, and
`Err(AccessError::Corrupted(CorruptedError::UnexpectedValueTy))` otherwise;
these are the only two outcomes on a resolved stored value. -/
theorem C8_get_resolved (s : DbState) (cname key : String) (coll : Collection) (v : JsVal)
    (hc : findColl s cname = some coll)
    (hv : collLookup coll (JsVal.str key) = some v) :
    (∀ text, asString v = some text → get s none cname key = .ok (some text)) ∧
    (asString v = none → get s none cname key = .err (.Corrupted .UnexpectedValueTy)) ∧
    ((∃ text, get s none cname key = .ok (some text)) ∨
      get s none cname key = .err (.Corrupted .UnexpectedValueTy)) := by
  have hbase : get s none cname key =
      (match asString v with
       | some text => .ok (some text)
       | none => .err (.Corrupted .UnexpectedValueTy)) := by
    simp [get, hc, hv]
  refine ⟨?_, ?_, ?_⟩
  · intro text ht
    rw [hbase, ht]
  · intro ht
    rw [hbase, ht]
  · rcases ht : asString v with _ | t
    · right
      rw [hbase, ht]
    · left
      exact ⟨t, by rw [hbase, ht]⟩

/-- Witness for C8: a stored text value and a stored binary value. -/
theorem C8_get_resolved_witness :
    get dbMixed none "block-headers" "aa" = .ok (some "0102") ∧
    get dbMixed none "block-headers" "bb" = .err (.Corrupted .UnexpectedValueTy) :=
  ⟨(C8_get_resolved dbMixed "block-headers" "aa"
      [(JsVal.str "aa", JsVal.str "0102"), (JsVal.str "bb", JsVal.other)]
      (JsVal.str "0102") rfl rfl).1 "0102" rfl,
    (C8_get_resolved dbMixed "block-headers" "bb"
      [(JsVal.str "aa", JsVal.str "0102"), (JsVal.str "bb", JsVal.other)]
      JsVal.other rfl rfl).2.1 rfl⟩

/-- C5: `wait_transaction` registers the same one-shot signal identically on
the complete, abort and error notification channels, and after the signal
resolves it returns `Ok(())` exactly when the transaction's terminal error
field is `None` and `Err(e)` exactly when that field is `Some(e)`. -/
theorem C5_wait_transaction_spec (h : Nat) (txnError : Option DomException) :
    ((registerCompletionHandlers h).oncomplete = some h ∧
     (registerCompletionHandlers h).onabort = (registerCompletionHandlers h).oncomplete ∧
     (registerCompletionHandlers h).onerror = (registerCompletionHandlers h).oncomplete) ∧
    (wait_transaction txnError = .ok () ↔ txnError = none) ∧
    (∀ e, wait_transaction txnError = .error e ↔ txnError = some e) := by
  refine ⟨⟨rfl, rfl, rfl⟩, ?_, ?_⟩
  · cases txnError <;> simp [wait_transaction]
  · intro e
    cases txnError <;> simp [wait_transaction]

/-- Witness for C5 at concrete terminal states. -/
theorem C5_wait_transaction_spec_witness :
    wait_transaction none = .ok () ∧
    wait_transaction (some ⟨"AbortError"⟩) = .error ⟨"AbortError"⟩ :=
  ⟨((C5_wait_transaction_spec 0 none).2.1).mpr rfl,
    ((C5_wait_transaction_spec 0 (some ⟨"AbortError"⟩)).2.2 ⟨"AbortError"⟩).mpr rfl⟩

theorem findColl_none (s : DbState) (n : String) (h : findColl s n = none) :
    s.colls.find? (fun p => p.fst == n) = none := by
  unfold findColl at h
  rcases hx : s.colls.find? (fun p => p.fst == n) with _ | p
  · exact hx
  · rw [hx] at h
    simp at h

theorem createObjectStore_mem (s s1 : DbState) (n : String)
    (h : createObjectStore s n = some s1) : ∀ p ∈ s.colls, p ∈ s1.colls := by
  unfold createObjectStore at h
  by_cases hx : (findColl s n).isSome
  · rw [if_pos hx] at h
    cases h
  · rw [if_neg hx] at h
    cases h
    intro p hp
    exact List.mem_append_left _ hp

/-- C6: on a store containing neither collection, `create_schema` at
`old_version = 0` creates exactly the two collections `block-headers` and
`best-chain`; at every `old_version >= 1` it returns the store unchanged;
and whenever it succeeds, every pre-existing collection is preserved
untouched. -/
theorem C6_create_schema_spec (s : DbState) (v : Nat) :
    (v = 0 → findColl s "block-headers" = none → findColl s "best-chain" = none →
      create_schema s v
        = some ⟨s.colls ++ [("block-headers", []), ("best-chain", [])]⟩) ∧
    (1 ≤ v → create_schema s v = some s) ∧
    (∀ s1, create_schema s v = some s1 → ∀ p ∈ s.colls, p ∈ s1.colls) := by
  refine ⟨?_, ?_, ?_⟩
  · rintro rfl hbh hbc
    have h1 : createObjectStore s "block-headers"
        = some ⟨s.colls ++ [("block-headers", [])]⟩ := by
      unfold createObjectStore
      rw [hbh]
      rfl
    have h2 : findColl ⟨s.colls ++ [("block-headers", [])]⟩ "best-chain" = none := by
      unfold findColl
      rw [List.find?_append, findColl_none s _ hbc]
      rfl
    have h3 : createObjectStore (⟨s.colls ++ [("block-headers", [])]⟩ : DbState) "best-chain"
        = some ⟨(s.colls ++ [("block-headers", [])]) ++ [("best-chain", [])]⟩ := by
      unfold createObjectStore
      rw [h2]
      rfl
    unfold create_schema
    rw [if_pos (Nat.le_refl 0)]
    rw [h1]
    simp only [h3]
    rw [List.append_assoc]
    rfl
  · intro hv
    unfold create_schema
    rw [if_neg (by omega)]
  · intro s1 hrun p hp
    unfold create_schema at hrun
    by_cases hv : v ≤ 0
    · rw [if_pos hv] at hrun
      rcases h1 : createObjectStore s "block-headers" with _ | s2
      · rw [h1] at hrun
        cases hrun
      · rw [h1] at hrun
        exact createObjectStore_mem s2 s1 _ hrun p (createObjectStore_mem s s2 _ h1 p hp)
    · rw [if_neg hv] at hrun
      cases hrun
      exact hp

/-- Witness for C6: a fresh store gains exactly the two collections at
version 0, and a current store is unchanged at version 1. -/
theorem C6_create_schema_spec_witness :
    create_schema dbEmpty 0 = some ⟨[("block-headers", []), ("best-chain", [])]⟩ ∧
    create_schema dbFresh 1 = some dbFresh :=
  ⟨(C6_create_schema_spec dbEmpty 0).1 rfl rfl rfl,
    (C6_create_schema_spec dbFresh 1).2.1 (Nat.le_refl 1)⟩

/-- C7 (amended): `open` returns `Err(OpenError::NoWindow)` when no window is
available and `Err(OpenError::IndexedDbNotSupported(v))` when the window
exists but accessing the IndexedDB capability reports an error `v`; when the
capability object is reported absent (`indexed_db()` returns `Ok(None)`,
i.e. unsupported), the code panics on the `unwrap` instead of returning an
error; and whenever an open request is issued, it is issued at the fixed
target schema version 1 against the given name. -/
theorem C7_open_spec (env : OpenEnv) (name : String) :
    (env.window = none → open_database env name = (.err .NoWindow, none)) ∧
    (∀ v, env.window = some (Except.error v) →
      open_database env name = (.err (.IndexedDbNotSupported v), none)) ∧
    (env.window = some (Except.ok none) →
      open_database env name = (.fatal, none)) ∧
    (∀ req, (open_database env name).snd = some req →
      req.version = 1 ∧ req.name = name) := by
  obtain ⟨w, r⟩ := env
  refine ⟨?_, ?_, ?_, ?_⟩
  · rintro rfl
    rfl
  · rintro v rfl
    rfl
  · rintro rfl
    rfl
  · intro req hreq
    cases w with
    | none => cases hreq
    | some idb =>
      cases idb with
      | error v => cases hreq
      | ok o =>
        cases o with
        | none => cases hreq
        | some u =>
          cases r with
          | ok db =>
            cases hreq
            exact ⟨rfl, rfl⟩
          | error v =>
            cases hreq
            exact ⟨rfl, rfl⟩

/-- Counterexample to C7 as stated: when the window exists but the capability
object is absent (unsupported), `open` panics rather than returning
`Err(OpenError::IndexedDbNotSupported)`. -/
theorem C7_counterexample :
    open_database ⟨some (Except.ok none), Except.ok dbFresh⟩ "chain-db" = (.fatal, none) := rfl

/-- Witness for C7 at concrete environments. -/
theorem C7_open_spec_witness :
    open_database ⟨none, Except.ok dbFresh⟩ "chain-db" = (.err .NoWindow, none) ∧
    open_database ⟨some (Except.error JsVal.other), Except.ok dbFresh⟩ "chain-db"
      = (.err (.IndexedDbNotSupported JsVal.other), none) ∧
    (⟨"chain-db", 1⟩ : OpenRequest).version = 1 ∧
    (⟨"chain-db", 1⟩ : OpenRequest).name = "chain-db" := by
  refine ⟨(C7_open_spec ⟨none, Except.ok dbFresh⟩ "chain-db").1 rfl,
    (C7_open_spec ⟨some (Except.error JsVal.other), Except.ok dbFresh⟩ "chain-db").2.1
      JsVal.other rfl,
    (C7_open_spec ⟨some (Except.ok (some ())), Except.ok dbFresh⟩ "chain-db").2.2.2
      ⟨"chain-db", 1⟩ rfl⟩

theorem rustFract_eq_zero_iff (q : ℚ) : rustFract q = 0 ↔ q.den = 1 := by
  unfold rustFract
  by_cases hq : q < 0
  · rw [if_pos hq, sub_eq_zero]
    constructor
    · intro h
      rw [h]
      exact Rat.den_intCast _
    · intro h
      have h2 := (Rat.den_eq_one_iff q).mp h
      rw [← h2, Int.ceil_intCast]
  · rw [if_neg hq, sub_eq_zero]
    constructor
    · intro h
      rw [h]
      exact Rat.den_intCast _
    · intro h
      have h2 := (Rat.den_eq_one_iff q).mp h
      rw [← h2, Int.floor_intCast]

/-- C10 (amended): the upgrade callback accepts an old version exactly when
it is an integral, non-negative number strictly below `2^32 - 1 =
4294967295` (the code's bound is `u32::max_value() as f64`, which excludes
`4294967295` itself, so "strictly below 2^32" overstates the accepted range
by one value); under that precondition the conversion to a 32-bit integer is
exact and `create_schema` is invoked with it. -/
theorem C10_upgrade_guard (db : DbState) (q : ℚ) :
    (on_upgrade_needed db q ≠ none ↔ (q.den = 1 ∧ 0 ≤ q ∧ q < 4294967295)) ∧
    (q.den = 1 → 0 ≤ q → q < 4294967295 →
      on_upgrade_needed db q = some (create_schema db q.num.toNat) ∧
      ((q.num.toNat : ℚ) = q)) := by
  have hiff : (rustFract q = 0 ∧ 0 ≤ q ∧ q < 4294967295)
      ↔ (q.den = 1 ∧ 0 ≤ q ∧ q < 4294967295) :=
    and_congr_left (fun _ => rustFract_eq_zero_iff q)
  constructor
  · unfold on_upgrade_needed
    by_cases hcond : rustFract q = 0 ∧ 0 ≤ q ∧ q < 4294967295
    · rw [if_pos hcond]
      simp [hiff.mp hcond]
    · rw [if_neg hcond]
      simp only [ne_eq, not_true_eq_false, false_iff]
      exact fun hr => hcond (hiff.mpr hr)
  · intro hden hge hlt
    have hc : rustFract q = 0 ∧ 0 ≤ q ∧ q < 4294967295 :=
      ⟨(rustFract_eq_zero_iff q).mpr hden, hge, hlt⟩
    refine ⟨?_, ?_⟩
    · unfold on_upgrade_needed
      rw [if_pos hc]
    · have h2 := (Rat.den_eq_one_iff q).mp hden
      have hnum : 0 ≤ q.num := Rat.num_nonneg.mpr hge
      calc (q.num.toNat : ℚ) = ((q.num.toNat : ℤ) : ℚ) := by norm_cast
        _ = (q.num : ℚ) := by rw [Int.toNat_of_nonneg hnum]
        _ = q := h2

/-- Counterexample to C10 as stated: `4294967295` is integral, non-negative
and strictly below `2^32`, yet the callback's assertions reject it. -/
theorem C10_counterexample :
    on_upgrade_needed dbEmpty 4294967295 = none ∧
    (4294967295 : ℚ).den = 1 ∧ (0 : ℚ) ≤ 4294967295 ∧ (4294967295 : ℚ) < 2 ^ 32 := by
  refine ⟨?_, rfl, by norm_num, by norm_num⟩
  unfold on_upgrade_needed
  rw [if_neg]
  rintro ⟨-, -, hlt⟩
  norm_num at hlt

/-- Witness for C10 at the concrete accepted version 5. -/
theorem C10_upgrade_guard_witness :
    on_upgrade_needed dbEmpty 5 = some (create_schema dbEmpty (5 : ℚ).num.toNat) ∧
    (((5 : ℚ).num.toNat : ℚ) = 5) :=
  (C10_upgrade_guard dbEmpty 5).2 rfl (by norm_num) (by norm_num)

end IndexedDbLight
